import Mathlib

set_option maxRecDepth 8000

/-! Shallow embedding of scripts/generate_monsters.py: a procedural pixel-art
sprite generator.  Coordinates are integer pairs (Python ints), colors are
RGBA quadruples, and a Python dict from coordinates to colors is modelled as
a function from coordinates to optional colors, built by replaying the
dict writes in program order (last write wins). -/

/-- Pixel coordinates (x, y), as Python arbitrary-precision integers. -/
abbrev Coord : Type := Int × Int

/-- RGBA color values. -/
abbrev Color : Type := Nat × Nat × Nat × Nat

/-- The empty pixel dict. -/
def pmEmpty : Coord → Option Color := fun _ => none

/-- One dict write: body[(p)] = c. -/
def pmSet (m : Coord → Option Color) (p : Coord) (c : Color) : Coord → Option Color :=
  fun q => if q = p then some c else m q

/-- A sparse pixel map (Python dict {(x, y): color}). -/
abbrev PixelMap : Type := Coord → Option Color

/-- Replay a list of dict writes in order (later writes shadow earlier ones). -/
def applyTrace (m : PixelMap) (t : List (Coord × Color)) : PixelMap :=
  t.foldl (fun m2 pc => pmSet m2 pc.1 pc.2) m

/-- The pixel map obtained by replaying a write trace on the empty dict. -/
def pmOfTrace (t : List (Coord × Color)) : PixelMap := applyTrace pmEmpty t

/-- Python dict.update: entries of upd shadow entries of base. -/
def pmUpdate (base upd : PixelMap) : PixelMap :=
  fun q => match upd q with
  | some c => some c
  | none => base q

/-- The canvas bounds test 0 <= x < 32 and 0 <= y < 32 from the source. -/
def inBounds (p : Coord) : Prop := 0 ≤ p.1 ∧ p.1 < 32 ∧ 0 ≤ p.2 ∧ p.2 < 32

instance (p : Coord) : Decidable (inBounds p) := by unfold inBounds; infer_instance

/-- Python range(a, b) over integers, as the list a, a+1, ..., b-1. -/
def intRange (a b : Int) : List Int :=
  (List.range (b - a).toNat).map (fun (i : Nat) => a + (i : Int))

/-- The four orthogonal neighbors of p, in the source's delta order
(-1,0), (1,0), (0,-1), (0,1).  No diagonals. -/
def nbrsOf (p : Coord) : List Coord :=
  [(p.1 - 1, p.2), (p.1 + 1, p.2), (p.1, p.2 - 1), (p.1, p.2 + 1)]

/-- The inner loop body of draw_outline for one body pixel p: for each of the
four orthogonal neighbors n of p, write the outline color at n when n is not
a body pixel and n is within canvas bounds. -/
def outlineStep (body : List Coord) (c : Color) (m : PixelMap) (p : Coord) : PixelMap :=
  (nbrsOf p).foldl (fun m2 n => if n ∉ body ∧ inBounds n then pmSet m2 n c else m2) m

/-- draw_outline(pixels, body_pixels, color): starts from a copy of pixels and,
for every member of body_pixels, writes color at each orthogonal neighbor
that is not itself a body pixel and lies within canvas bounds. -/
def draw_outline (px : PixelMap) (body : List Coord) (c : Color) : PixelMap :=
  body.foldl (outlineStep body c) px

-- VS Code Dark+ palette from the source dict C.

def transparent : Color := (0, 0, 0, 0)
def black : Color := (0, 0, 0, 255)
def dark_bg : Color := (30, 30, 30, 255)
def red : Color := (244, 71, 71, 255)
def dark_red : Color := (180, 40, 40, 255)
def orange : Color := (206, 145, 120, 255)
def yellow : Color := (220, 220, 170, 255)
def green : Color := (106, 153, 85, 255)
def dark_green : Color := (60, 100, 50, 255)
def light_green : Color := (181, 206, 168, 255)
def blue : Color := (86, 156, 214, 255)
def dark_blue : Color := (50, 100, 160, 255)
def light_blue : Color := (156, 220, 254, 255)
def purple : Color := (197, 134, 192, 255)
def dark_purple : Color := (130, 80, 130, 255)
def magenta : Color := (190, 60, 160, 255)
def white : Color := (212, 212, 212, 255)
def gray : Color := (128, 128, 128, 255)
def dark_gray : Color := (80, 80, 80, 255)
def brown : Color := (150, 100, 60, 255)
def dark_brown : Color := (100, 65, 40, 255)
def cyan : Color := (78, 201, 176, 255)
def dark_cyan : Color := (50, 140, 120, 255)

/-- The palette dict C, as an association list in source order. -/
def palette : List (String × Color) :=
  [("transparent", transparent), ("black", black), ("dark_bg", dark_bg),
   ("red", red), ("dark_red", dark_red), ("orange", orange), ("yellow", yellow),
   ("green", green), ("dark_green", dark_green), ("light_green", light_green),
   ("blue", blue), ("dark_blue", dark_blue), ("light_blue", light_blue),
   ("purple", purple), ("dark_purple", dark_purple), ("magenta", magenta),
   ("white", white), ("gray", gray), ("dark_gray", dark_gray),
   ("brown", brown), ("dark_brown", dark_brown), ("cyan", cyan),
   ("dark_cyan", dark_cyan)]

/-- A palette access C[name]: a missing key raises KeyError in Python,
modelled as an error value; a present key yields its color. -/
def lookupColor (n : String) : Except String Color :=
  match palette.lookup n with
  | some c => Except.ok c
  | none => Except.error "color not found"

/-- make_sprite: rasterize a pixel map onto a fresh 32x32 fully transparent
RGBA canvas; dict entries whose coordinate passes the bounds check are
written via putpixel, all others are silently dropped. -/
def make_sprite (m : PixelMap) (x y : Nat) : Color :=
  if x < 32 ∧ y < 32 then
    match m ((x : Int), (y : Int)) with
    | some c => c
    | none => transparent
  else transparent

/-- The per-sprite compositing recipe shared by all eight generators:
pixels = draw_outline(body, body_set); pixels.update(body). -/
def compositeOf (body : PixelMap) (bodySet : List Coord) : PixelMap :=
  pmUpdate (draw_outline body bodySet black) body

-- Evaluation lemmas for the embedded dict operations.

theorem pmSet_eval (m : PixelMap) (p : Coord) (c : Color) (q : Coord) :
    pmSet m p c q = if q = p then some c else m q := rfl

theorem intRange_mem {a b x : Int} : x ∈ intRange a b ↔ a ≤ x ∧ x < b := by
  constructor
  · intro h
    obtain ⟨i, hi, hx⟩ := List.mem_map.mp h
    have hi2 := List.mem_range.mp hi
    rw [← hx]
    omega
  · intro h
    exact List.mem_map.mpr ⟨(x - a).toNat, List.mem_range.mpr (by omega), by omega⟩

theorem guardedStep_eval (body : List Coord) (c : Color) (m : PixelMap) (n q : Coord) :
    (if n ∉ body ∧ inBounds n then pmSet m n c else m) q
      = if q = n ∧ q ∉ body ∧ inBounds q then some c else m q := by
  by_cases hqn : q = n
  · subst hqn
    by_cases hP : q ∉ body ∧ inBounds q
    · simp [hP, pmSet]
    · simp [hP]
  · by_cases hP : n ∉ body ∧ inBounds n
    · simp [hqn, hP, pmSet]
    · simp [hqn, hP]

theorem guardedFill_eval (body : List Coord) (c : Color) :
    ∀ (ns : List Coord) (m : PixelMap) (q : Coord),
      (ns.foldl (fun m2 n => if n ∉ body ∧ inBounds n then pmSet m2 n c else m2) m) q
        = if (q ∉ body ∧ inBounds q) ∧ q ∈ ns then some c else m q
  | [], m, q => by simp
  | n :: ns, m, q => by
      rw [List.foldl_cons, guardedFill_eval body c ns _ q, guardedStep_eval]
      by_cases hP : q ∉ body ∧ inBounds q
      · obtain ⟨hP1, hP2⟩ := hP
        by_cases h1 : q ∈ ns
        · simp [hP1, hP2, h1]
        · by_cases h2 : q = n
          · subst h2
            simp [hP1, hP2, h1]
          · simp [hP1, hP2, h1, h2]
      · simp [hP]

theorem outlineStep_eval (body : List Coord) (c : Color) (m : PixelMap) (p q : Coord) :
    outlineStep body c m p q = if (q ∉ body ∧ inBounds q) ∧ q ∈ nbrsOf p then some c else m q :=
  guardedFill_eval body c (nbrsOf p) m q

theorem outline_fold_eval (body : List Coord) (c : Color) :
    ∀ (l : List Coord) (m : PixelMap) (q : Coord),
      (l.foldl (outlineStep body c) m) q
        = if (q ∉ body ∧ inBounds q) ∧ (∃ p ∈ l, q ∈ nbrsOf p) then some c else m q
  | [], m, q => by simp
  | p :: l, m, q => by
      rw [List.foldl_cons, outline_fold_eval body c l _ q, outlineStep_eval]
      by_cases hP : q ∉ body ∧ inBounds q
      · obtain ⟨hP1, hP2⟩ := hP
        by_cases h1 : ∃ r ∈ l, q ∈ nbrsOf r
        · simp [hP1, hP2, h1, List.exists_mem_cons_iff]
        · by_cases h2 : q ∈ nbrsOf p <;>
            simp [hP1, hP2, h1, h2, List.exists_mem_cons_iff]
      · simp [hP]

/-- Pointwise value of draw_outline: a coordinate q holds the outline color
exactly when q is not a body pixel, q is in bounds, and q is an orthogonal
neighbor of some body pixel; every other coordinate keeps its prior value. -/
theorem draw_outline_eval (px : PixelMap) (body : List Coord) (c : Color) (q : Coord) :
    draw_outline px body c q
      = if (q ∉ body ∧ inBounds q) ∧ (∃ p ∈ body, q ∈ nbrsOf p) then some c else px q :=
  outline_fold_eval body c body px q

/-- The synthetic 3x3 body block with coordinates {5,6,7} x {5,6,7}. -/
def block33 : List Coord :=
  [(5, 5), (6, 5), (7, 5), (5, 6), (6, 6), (7, 6), (5, 7), (6, 7), (7, 7)]

/-- The 12 orthogonal neighbor coordinates framing the 3x3 block. -/
def block33Frame : List Coord :=
  [(4, 5), (4, 6), (4, 7), (8, 5), (8, 6), (8, 7),
   (5, 4), (6, 4), (7, 4), (5, 8), (6, 8), (7, 8)]

/-- C1: for every frozen body set, the outline layer holds the outline color
exactly at the in-bounds orthogonal neighbors of body pixels that are not
body pixels themselves; for the 3x3 block {5,6,7} x {5,6,7} the outline
layer is exactly the 12 framing orthogonal neighbors, with no diagonal
members and no member of the block. -/
theorem c1_outline_exact :
    (∀ (px : PixelMap) (body : List Coord) (c : Color) (q : Coord),
        draw_outline px body c q
          = if (q ∉ body ∧ inBounds q) ∧ (∃ p ∈ body, q ∈ nbrsOf p) then some c else px q)
    ∧ (∀ q : Coord,
        draw_outline pmEmpty block33 black q
          = if q ∈ block33Frame then some black else none) := by
  constructor
  · exact fun px body c q => draw_outline_eval px body c q
  · intro q
    rw [draw_outline_eval]
    have key : ((q ∉ block33 ∧ inBounds q) ∧ (∃ p ∈ block33, q ∈ nbrsOf p))
        ↔ q ∈ block33Frame := by
      constructor
      · rintro ⟨⟨hnb, _⟩, p, hp, hadj⟩
        have hq : q ∈ block33.flatMap nbrsOf := List.mem_flatMap.mpr ⟨p, hp, hadj⟩
        have hall : ∀ r ∈ block33.flatMap nbrsOf, r ∉ block33 → r ∈ block33Frame := by decide
        exact hall q hq hnb
      · intro hq
        have hall : ∀ r ∈ block33Frame,
            (r ∉ block33 ∧ inBounds r) ∧ (∃ p ∈ block33, r ∈ nbrsOf p) := by decide
        exact hall q hq
    exact if_congr key rfl rfl

-- Lemmas about replayed dict write traces.

theorem applyTrace_mem (t : List (Coord × Color)) :
    ∀ (m : PixelMap) (q : Coord) (c : Color),
      applyTrace m t q = some c → (q, c) ∈ t ∨ m q = some c := by
  induction t with
  | nil => exact fun m q c h => Or.inr h
  | cons pc t ih =>
      intro m q c h
      obtain ⟨pp, cc⟩ := pc
      rcases ih (pmSet m pp cc) q c h with h1 | h2
      · exact Or.inl (List.mem_cons_of_mem _ h1)
      · by_cases hq : q = pp
        · subst hq
          simp only [pmSet, if_pos rfl] at h2
          obtain rfl : cc = c := Option.some.inj h2
          exact Or.inl (List.mem_cons_self _ _)
        · simp only [pmSet, if_neg hq] at h2
          exact Or.inr h2

/-- Every entry of a replayed dict comes from some write in the trace. -/
theorem pmOfTrace_mem {t : List (Coord × Color)} {q : Coord} {c : Color}
    (h : pmOfTrace t q = some c) : (q, c) ∈ t := by
  rcases applyTrace_mem t pmEmpty q c h with h1 | h2
  · exact h1
  · exact absurd h2 (by simp [pmEmpty])

theorem applyTrace_eval (t : List (Coord × Color)) :
    ∀ (m : PixelMap) (q : Coord),
      applyTrace m t q
        = match pmOfTrace t q with
          | some c => some c
          | none => m q := by
  induction t with
  | nil => intro m q; simp [applyTrace, pmOfTrace, pmEmpty]
  | cons pc t ih =>
      intro m q
      obtain ⟨pp, cc⟩ := pc
      show applyTrace (pmSet m pp cc) t q = _
      rw [ih (pmSet m pp cc) q]
      have hR : pmOfTrace ((pp, cc) :: t) q
          = match pmOfTrace t q with
            | some c => some c
            | none => pmSet pmEmpty pp cc q := by
        show applyTrace (pmSet pmEmpty pp cc) t q = _
        rw [ih (pmSet pmEmpty pp cc) q]
      rw [hR]
      cases h : pmOfTrace t q with
      | some c => rfl
      | none => by_cases hq : q = pp <;> simp [pmSet, pmEmpty, hq]

/-- Python dict semantics of a concatenated write trace: on any coordinate,
a write from the later segment wins over the earlier segment. -/
theorem pmOfTrace_append (t1 t2 : List (Coord × Color)) (q : Coord) :
    pmOfTrace (t1 ++ t2) q
      = match pmOfTrace t2 q with
        | some c => some c
        | none => pmOfTrace t1 q := by
  show applyTrace pmEmpty (t1 ++ t2) q = _
  rw [applyTrace, List.foldl_append]
  exact applyTrace_eval t2 (applyTrace pmEmpty t1) q

theorem pmOfTrace_constmap (c : Color) :
    ∀ (l : List Coord) (q : Coord),
      pmOfTrace (l.map (fun p => (p, c))) q = if q ∈ l then some c else none := by
  intro l
  induction l with
  | nil => intro q; simp [pmOfTrace, applyTrace, pmEmpty]
  | cons a l ih =>
      intro q
      show applyTrace (pmSet pmEmpty a c) (l.map fun p => (p, c)) q = _
      rw [applyTrace_eval (l.map fun p => (p, c)) (pmSet pmEmpty a c) q, ih q]
      by_cases h : q ∈ l
      · simp [h]
      · by_cases hq : q = a
        · subst hq
          simp [h, pmSet]
        · simp [h, hq, pmSet, pmEmpty]

/-- C2: merge precedence.  First conjunct: in the composited result, any
coordinate present in the body dict (fill plus overlay pixels) resolves to
the body dict value, never to the outline color written at that coordinate,
which is exactly the precedence outline < body.  Second conjunct: within one
dict, writes of a later trace segment (overlay pixels) win over writes of an
earlier segment (fill pixels), which is the precedence body < overlay. -/
theorem c2_precedence :
    (∀ (body : PixelMap) (bodySet : List Coord) (q : Coord) (c : Color),
        body q = some c → compositeOf body bodySet q = some c)
    ∧ (∀ (t1 t2 : List (Coord × Color)) (q : Coord),
        pmOfTrace (t1 ++ t2) q
          = match pmOfTrace t2 q with
            | some c => some c
            | none => pmOfTrace t1 q) := by
  constructor
  · intro body bodySet q c h
    unfold compositeOf pmUpdate
    rw [h]
  · exact pmOfTrace_append

/-- Witness for C2: a one-pixel body at (5,5) with an overlay pixel at (4,5);
the coordinate (4,5) is outline-eligible for the body set, yet the composited
pixel keeps the overlay color white (and the outline layer alone would have
painted it black). -/
theorem c2_precedence_witness :
    compositeOf (pmOfTrace [((5, 5), purple), ((4, 5), white)]) [(5, 5)] (4, 5) = some white :=
  c2_precedence.1 (pmOfTrace [((5, 5), purple), ((4, 5), white)]) [(5, 5)] (4, 5) white
    (by decide)

/-- C7: the canvas is exactly 32x32.  First conjunct: any query outside the
canvas yields the transparent background, for every pixel map.  Second
conjunct: the rasterized image depends only on the in-bounds entries of the
composited pixel map, so out-of-bounds entries are silently dropped and can
never appear in the output. -/
theorem c7_canvas_bounds :
    (∀ (m : PixelMap) (x y : Nat), ¬(x < 32 ∧ y < 32) → make_sprite m x y = transparent)
    ∧ (∀ (m m2 : PixelMap), (∀ p, inBounds p → m p = m2 p) →
        ∀ x y : Nat, make_sprite m x y = make_sprite m2 x y) := by
  constructor
  · intro m x y h
    unfold make_sprite
    rw [if_neg h]
  · intro m m2 h x y
    by_cases hb : x < 32 ∧ y < 32
    · obtain ⟨hx, hy⟩ := hb
      unfold make_sprite
      rw [if_pos ⟨hx, hy⟩, if_pos ⟨hx, hy⟩, h ((x : Int), (y : Int))]
      unfold inBounds
      show (0 : Int) ≤ (x : Int) ∧ (x : Int) < 32 ∧ (0 : Int) ≤ (y : Int) ∧ (y : Int) < 32
      omega
    · unfold make_sprite
      rw [if_neg hb, if_neg hb]

/-- Witness for C7: the coordinate (32, 0) is off-canvas and rasterizes to
transparent, and an out-of-bounds dict entry at (40, 2) does not change the
rasterized image. -/
theorem c7_canvas_bounds_witness :
    make_sprite pmEmpty 32 0 = transparent
    ∧ make_sprite (pmSet pmEmpty (40, 2) red) 0 0 = make_sprite pmEmpty 0 0 := by
  constructor
  · exact c7_canvas_bounds.1 pmEmpty 32 0 (by decide)
  · refine c7_canvas_bounds.2 (pmSet pmEmpty (40, 2) red) pmEmpty ?_ 0 0
    intro p hp
    by_cases h : p = (40, 2)
    · subst h
      exact absurd hp (by decide)
    · simp [pmSet, h]

/-- Every color name referenced by at least one of the 8 generator routines
(including the black outline default and the transparent canvas background). -/
def referencedColorNames : List String :=
  ["transparent", "black", "dark_bg", "red", "dark_red", "orange", "yellow",
   "green", "dark_green", "light_green", "blue", "dark_blue", "light_blue",
   "purple", "dark_purple", "magenta", "white", "gray", "dark_gray",
   "brown", "dark_brown", "cyan"]

theorem lookup_none_of_not_mem :
    ∀ (l : List (String × Color)) (n : String),
      n ∉ l.map Prod.fst → List.lookup n l = none
  | [], _, _ => rfl
  | (k, v) :: l, n, h => by
      simp only [List.map_cons, List.mem_cons, not_or] at h
      obtain ⟨h1, h2⟩ := h
      have hb : (n == k) = false := beq_eq_false_iff_ne.mpr h1
      simp only [List.lookup, hb]
      exact lookup_none_of_not_mem l n h2

/-- C9: palette lookup with an unregistered color name fails (the KeyError
branch), and every color name referenced by the 8 descriptors resolves to a
palette entry, so the failure branch is unreachable for every sprite. -/
theorem c9_palette_total :
    (∀ n ∈ referencedColorNames, ∃ c, lookupColor n = Except.ok c)
    ∧ (∀ n : String, n ∉ palette.map Prod.fst →
        lookupColor n = Except.error "color not found") := by
  constructor
  · intro n hn
    fin_cases hn <;> exact ⟨_, rfl⟩
  · intro n h
    unfold lookupColor
    rw [lookup_none_of_not_mem palette n h]

/-- Witness for C9: the registered name purple resolves, and the unregistered
name chartreuse hits the failure branch. -/
theorem c9_palette_total_witness :
    (∃ c, lookupColor "purple" = Except.ok c)
    ∧ lookupColor "chartreuse" = Except.error "color not found" :=
  ⟨c9_palette_total.1 "purple" (by decide), c9_palette_total.2 "chartreuse" (by decide)⟩

/-! Per-monster embeddings.  Each generator routine in the source builds a
body dict and a body_set by a shape-fill loop followed by overlay writes,
then composites via draw_outline and dict.update.  The fill loops and
overlay writes below are transcribed in program order; the body set lists
record exactly the coordinates the source adds to body_set, in order. -/

-- nullpointer: purple ghost, rows 8..25, wavy bottom edge skips (x+y)%3==0.

def nullpointerW (y : Int) : Int :=
  if y < 12 then min ((y - 8) * 2 + 2) 10 else if y < 22 then 10 else 10

def nullpointerFill : List (Coord × Color) :=
  (intRange 8 26).flatMap (fun y =>
    (intRange (16 - Int.ediv (nullpointerW y) 2) (16 + Int.ediv (nullpointerW y) 2)).filterMap
      (fun x =>
        if 22 ≤ y ∧ (x + y) % 3 = 0 then none
        else some ((x, y), if y < 18 then purple else dark_purple)))

def nullpointerOverlay : List (Coord × Color) :=
  (([13, 14] : List Int).flatMap (fun x =>
    ([14, 15, 16] : List Int).map (fun y => ((x, y), dark_bg))))
  ++ (([18, 19] : List Int).flatMap (fun x =>
    ([14, 15, 16] : List Int).map (fun y => ((x, y), dark_bg))))
  ++ [((13, 14), light_blue), ((18, 14), light_blue),
      ((14, 20), magenta), ((16, 20), magenta), ((18, 20), magenta)]

def nullpointerBodySet : List Coord := nullpointerFill.map Prod.fst

def nullpointerPixels : PixelMap :=
  compositeOf (pmOfTrace (nullpointerFill ++ nullpointerOverlay)) nullpointerBodySet

-- typemismatch: red/orange split creature with the y%5==0 glitch row shift.

def typemismatchW (y : Int) : Int :=
  if y < 10 then min ((y - 6) * 2 + 4) 14
  else if y < 24 then 14
  else max (14 - (y - 24) * 3) 4

/-- The single dict/set write emitted for candidate pixel (x, y) of the
typemismatch fill: color by half and row parity; on glitch rows y%5==0 the
write lands at (x+1, y) in the left half and (x-1, y) in the right half,
otherwise at (x, y) itself. -/
def typemismatchFillWrite (y x : Int) : Coord × Color :=
  let col : Color :=
    if x < 16 then (if y % 2 = 0 then red else dark_red)
    else (if y % 2 = 0 then orange else yellow)
  if y % 5 = 0 then ((x + (if x < 16 then 1 else -1), y), col)
  else ((x, y), col)

def typemismatchFill : List (Coord × Color) :=
  (intRange 6 28).flatMap (fun y =>
    (intRange (16 - Int.ediv (typemismatchW y) 2) (16 + Int.ediv (typemismatchW y) 2)).map
      (typemismatchFillWrite y))

def typemismatchBodySet : List Coord := typemismatchFill.map Prod.fst

def typemismatchOverlay : List (Coord × Color) :=
  ((intRange 8 26).map (fun y => (((16 : Int), y), black)))
  ++ [((13, 12), white), ((14, 12), white), ((13, 13), red), ((14, 13), white),
      ((18, 11), yellow), ((19, 12), yellow), ((18, 13), yellow)]
  ++ ((intRange 13 20).map (fun x => ((x, (18 : Int)), dark_bg)))
  ++ [((14, 17), dark_bg), ((18, 17), dark_bg)]

def typemismatchPixels : PixelMap :=
  compositeOf (pmOfTrace (typemismatchFill ++ typemismatchOverlay)) typemismatchBodySet

-- offbyone: green bug, center column 15, antennae, offset eyes, six legs.

def offbyoneW (y : Int) : Int :=
  if y < 12 then min ((y - 8) * 2 + 4) 12
  else if y < 22 then 12
  else max (12 - (y - 22) * 2) 4

def offbyoneFill : List (Coord × Color) :=
  (intRange 8 26).flatMap (fun y =>
    (intRange (15 - Int.ediv (offbyoneW y) 2) (15 + Int.ediv (offbyoneW y) 2)).map (fun x =>
      ((x, y), if (x + y) % 3 ≠ 0 then green else dark_green)))

def offbyoneBodySet : List Coord := offbyoneFill.map Prod.fst

def offbyoneOverlay : List (Coord × Color) :=
  [((14, 7), light_green), ((14, 6), light_green), ((13, 5), light_green),
   ((17, 7), light_green), ((17, 6), light_green), ((18, 5), light_green),
   ((12, 13), white), ((13, 13), white), ((12, 14), yellow), ((13, 14), white),
   ((17, 12), white), ((18, 12), white), ((17, 13), yellow), ((18, 13), white)]
  ++ (([-1, 0, 1] : List Int).flatMap (fun dx =>
      [((10 + dx * 3, 24 + |dx|), dark_green), ((19 + dx * 3, 24 + |dx|), dark_green),
       ((10 + dx * 3, 25 + |dx|), dark_green), ((19 + dx * 3, 25 + |dx|), dark_green)]))
  ++ [((15, 19), yellow), ((16, 19), yellow)]

def offbyonePixels : PixelMap :=
  compositeOf (pmOfTrace (offbyoneFill ++ offbyoneOverlay)) offbyoneBodySet

-- stackoverflow_boss: stacked frames (lx, ly, rx, ry, color), each filled
-- then given yellow/dark_brown borders; crown coords are also added to the
-- body set afterwards.

def soLayers : List (Int × Int × Int × Int × Color) :=
  [(8, 10, 24, 14, dark_red), (7, 14, 25, 18, red),
   (6, 18, 26, 23, dark_red), (5, 23, 27, 27, red)]

def soLayerWrites : Int × Int × Int × Int × Color → List (Coord × Color)
  | (lx, ly, rx, ry, col) =>
    ((intRange ly ry).flatMap (fun y => (intRange lx rx).map (fun x => ((x, y), col))))
    ++ ((intRange lx rx).flatMap (fun x => [((x, ly), yellow), ((x, ry - 1), dark_brown)]))
    ++ ((intRange ly ry).flatMap (fun y => [((lx, y), yellow), ((rx - 1, y), dark_brown)]))

def soLayerCoords : Int × Int × Int × Int × Color → List Coord
  | (lx, ly, rx, ry, _) =>
    (intRange ly ry).flatMap (fun y => (intRange lx rx).map (fun x => (x, y)))

def stackoverflowFill : List (Coord × Color) := soLayers.flatMap soLayerWrites

def stackoverflowFillSet : List Coord := soLayers.flatMap soLayerCoords

def stackoverflowCrownSet : List Coord :=
  [(12, 8), (16, 8), (20, 8), (12, 9), (16, 9), (20, 9), (11, 9), (21, 9)]

def stackoverflowOverlay : List (Coord × Color) :=
  (([12, 16, 20] : List Int).flatMap (fun x => [((x, 8), yellow), ((x, 9), yellow)]))
  ++ [((11, 9), yellow), ((21, 9), yellow)]
  ++ (([12, 13] : List Int).flatMap (fun x => [((x, 12), yellow), ((x, 13), yellow)]))
  ++ (([19, 20] : List Int).flatMap (fun x => [((x, 12), yellow), ((x, 13), yellow)]))
  ++ [((13, 13), dark_bg), ((19, 13), dark_bg)]
  ++ ((intRange 13 20).map (fun x => ((x, (16 : Int)), dark_bg)))
  ++ [((14, 15), dark_bg), ((18, 15), dark_bg)]
  ++ ((intRange 10 22).filterMap (fun x =>
      if x % 2 = 0 then some ((x, (25 : Int)), yellow) else none))

def stackoverflowBodySet : List Coord := stackoverflowFillSet ++ stackoverflowCrownSet

def stackoverflowPixels : PixelMap :=
  compositeOf (pmOfTrace (stackoverflowFill ++ stackoverflowOverlay)) stackoverflowBodySet

-- racecondition: twin 1 (center 13) painted blue, twin 2 (center 19) painted
-- cyan where it lands on an already-written coordinate and light_blue
-- elsewhere; speed line coords are also added to the body set.

def raceTwin1Coords : List Coord :=
  (intRange 8 24).flatMap (fun y =>
    (intRange (13 - Int.ediv (if y < 20 then 8 else max (8 - (y - 20)) 4) 2)
              (13 + Int.ediv (if y < 20 then 8 else max (8 - (y - 20)) 4) 2)).map
      (fun x => (x, y)))

def raceTwin2Coords : List Coord :=
  (intRange 9 25).flatMap (fun y =>
    (intRange (19 - Int.ediv (if y < 21 then 8 else max (8 - (y - 21)) 4) 2)
              (19 + Int.ediv (if y < 21 then 8 else max (8 - (y - 21)) 4) 2)).map
      (fun x => (x, y)))

/-- One write of the second twin loop: cyan where the body dict already has
the coordinate (the blend branch), light_blue otherwise. -/
def twin2Step (m : PixelMap) (p : Coord) : PixelMap :=
  pmSet m p (if (m p).isSome then cyan else light_blue)

def raceBodyMap : PixelMap :=
  raceTwin2Coords.foldl twin2Step (pmOfTrace (raceTwin1Coords.map (fun p => (p, blue))))

def raceSpeedCoords : List Coord :=
  (([11, 15, 19] : List Int).flatMap (fun y => [(7, y), (6, y), (24, y + 1), (25, y + 1)]))

def raceOverlay : List (Coord × Color) :=
  [((12, 13), white), ((13, 13), white), ((12, 14), dark_bg),
   ((18, 14), white), ((19, 14), white), ((19, 15), dark_bg)]
  ++ (([11, 15, 19] : List Int).flatMap (fun y =>
      [((7, y), dark_blue), ((6, y), dark_blue),
       ((24, y + 1), dark_blue), ((25, y + 1), dark_blue)]))

def raceBodySet : List Coord := raceTwin1Coords ++ raceTwin2Coords ++ raceSpeedCoords

def racePixels : PixelMap :=
  compositeOf (applyTrace raceBodyMap raceOverlay) raceBodySet

-- memoryleak: green blob plus hanging drips; drip coords and bubble coords
-- are also added to the body set.

def memoryleakW (y : Int) : Int :=
  if y < 11 then min ((y - 7) * 3 + 4) 16
  else if y < 20 then 16
  else max (16 - (y - 20) * 2) 8

def memoryleakFill : List (Coord × Color) :=
  (intRange 7 24).flatMap (fun y =>
    (intRange (16 - Int.ediv (memoryleakW y) 2) (16 + Int.ediv (memoryleakW y) 2)).map (fun x =>
      ((x, y), if (x + y) % 2 = 0 then green else light_green)))

def memoryleakDrips : List (Coord × Color) :=
  ([((10 : Int), (3 : Int)), (14, 5), (18, 4), (22, 2)]).flatMap (fun d =>
    (intRange 0 d.2).map (fun dy => ((d.1, 24 + dy), if dy % 2 = 0 then green else dark_green)))

def memoryleakBubbles : List Coord := [(22, 9), (24, 7), (23, 8)]

def memoryleakOverlay : List (Coord × Color) :=
  memoryleakDrips
  ++ [((12, 13), white), ((13, 13), white), ((12, 14), white), ((13, 14), dark_bg),
      ((19, 13), white), ((20, 13), white), ((19, 14), dark_bg), ((20, 14), white),
      ((15, 18), dark_green), ((16, 18), dark_green), ((17, 18), dark_green),
      ((16, 19), dark_green), ((16, 20), dark_green)]
  ++ (memoryleakBubbles.map (fun p => (p, light_green)))

def memoryleakBodySet : List Coord :=
  memoryleakFill.map Prod.fst ++ memoryleakDrips.map Prod.fst ++ memoryleakBubbles

def memoryleakPixels : PixelMap :=
  compositeOf (pmOfTrace (memoryleakFill ++ memoryleakOverlay)) memoryleakBodySet

-- deadlock: gray blocky body; chain link coords are also added to the body
-- set; lock glyph, keyhole, eyes, frown are overlay-only.

def deadlockW (y : Int) : Int :=
  if y < 13 then min ((y - 9) * 2 + 6) 14
  else if y < 21 then 14
  else max (14 - (y - 21) * 2) 6

def deadlockFill : List (Coord × Color) :=
  (intRange 9 25).flatMap (fun y =>
    (intRange (16 - Int.ediv (deadlockW y) 2) (16 + Int.ediv (deadlockW y) 2)).map (fun x =>
      ((x, y), if (x + y) % 2 = 0 then gray else dark_gray)))

def deadlockChains : List Coord :=
  [(7, 14), (8, 13), (8, 15), (7, 16), (6, 15), (6, 13),
   (25, 14), (24, 13), (24, 15), (25, 16), (26, 15), (26, 13)]

def deadlockOverlay : List (Coord × Color) :=
  (deadlockChains.map (fun p => (p, brown)))
  ++ ((intRange 14 19).flatMap (fun x => [((x, (16 : Int)), yellow), ((x, (17 : Int)), yellow)]))
  ++ [((15, 14), yellow), ((17, 14), yellow), ((15, 15), yellow), ((17, 15), yellow),
      ((16, 17), dark_bg),
      ((12, 12), red), ((13, 12), red), ((19, 12), red), ((20, 12), red)]
  ++ ((intRange 13 20).map (fun x => ((x, (19 : Int)), dark_bg)))
  ++ [((13, 18), dark_bg), ((19, 18), dark_bg)]

def deadlockBodySet : List Coord := deadlockFill.map Prod.fst ++ deadlockChains

def deadlockPixels : PixelMap :=
  compositeOf (pmOfTrace (deadlockFill ++ deadlockOverlay)) deadlockBodySet

-- heisenbug_boss: 5-way cyclic fill colors[(x*3 + y*7) % 5]; crown and
-- quantum particle coords are also added to the body set.

def heisenbugColors : List Color := [purple, blue, cyan, light_blue, magenta]

def heisenbugW (y : Int) : Int :=
  if y < 10 then min ((y - 5) * 3 + 2) 18
  else if y < 24 then 18
  else max (18 - (y - 24) * 3) 6

def heisenbugFill : List (Coord × Color) :=
  (intRange 5 28).flatMap (fun y =>
    (intRange (16 - Int.ediv (heisenbugW y) 2) (16 + Int.ediv (heisenbugW y) 2)).map (fun x =>
      ((x, y),
        heisenbugColors.getD ((x * 3 + y * 7) % (heisenbugColors.length : Int)).toNat
          transparent)))

def heisenbugCrownCoords : List Coord :=
  (([11, 14, 16, 18, 21] : List Int).flatMap (fun x => [(x, 4), (x, 3)]))

def heisenbugParticles : List Coord :=
  [(6, 8), (26, 10), (5, 18), (27, 16), (8, 25), (24, 26)]

def heisenbugOverlay : List (Coord × Color) :=
  (([11, 14, 16, 18, 21] : List Int).flatMap (fun x => [((x, 4), magenta), ((x, 3), magenta)]))
  ++ (([((11 : Int), (13 : Int)), (14, 11), (18, 11), (21, 13)]).flatMap (fun e =>
      [((e.1, e.2), white), ((e.1 + 1, e.2), white),
       ((e.1, e.2 + 1), yellow), ((e.1 + 1, e.2 + 1), white)]))
  ++ ((intRange 11 22).map (fun x => ((x, 18 + (if x % 3 = 0 then 1 else 0)), dark_bg)))
  ++ (heisenbugParticles.map (fun p => (p, light_blue)))
  ++ [((16, 21), yellow), ((16, 23), yellow)]

def heisenbugFillCoords : List Coord := heisenbugFill.map Prod.fst

def heisenbugBodySet : List Coord :=
  heisenbugFillCoords ++ heisenbugCrownCoords ++ heisenbugParticles

def heisenbugPixels : PixelMap :=
  compositeOf (pmOfTrace (heisenbugFill ++ heisenbugOverlay)) heisenbugBodySet

/-- The whole batch, in source order.  The seed parameter records that no
step of the pipeline consults any source of randomness: the result is the
same function of the descriptors and palette for every seed. -/
def generateAll (_seed : Nat) : List (String × PixelMap) :=
  [("nullpointer", nullpointerPixels), ("typemismatch", typemismatchPixels),
   ("offbyone", offbyonePixels), ("stackoverflow", stackoverflowPixels),
   ("racecondition", racePixels), ("memoryleak", memoryleakPixels),
   ("deadlock", deadlockPixels), ("heisenbug", heisenbugPixels)]

-- Lemmas about the racecondition twin fill.

theorem twin2Step_eval (m : PixelMap) (a q : Coord) :
    twin2Step m a q
      = if q = a then some (if (m a).isSome then cyan else light_blue) else m q := rfl

theorem twin2_fold_eval :
    ∀ (l : List Coord), l.Nodup → ∀ (m : PixelMap) (q : Coord),
      (l.foldl twin2Step m) q
        = if q ∈ l then (if (m q).isSome then some cyan else some light_blue) else m q := by
  intro l
  induction l with
  | nil => intro _ m q; simp
  | cons a l ih =>
      intro hnd m q
      obtain ⟨ha, hl⟩ := List.nodup_cons.mp hnd
      rw [List.foldl_cons, ih hl (twin2Step m a) q]
      by_cases h1 : q ∈ l
      · have hqa : q ≠ a := fun he => ha (he ▸ h1)
        have h2 : twin2Step m a q = m q := by simp [twin2Step, pmSet, hqa]
        simp [h1, h2]
      · by_cases hqa : q = a
        · subst hqa
          have h2 : twin2Step m q q = some (if (m q).isSome then cyan else light_blue) := by
            simp [twin2Step, pmSet]
          by_cases hc : (m q).isSome <;> simp [h1, h2, hc]
        · have h2 : twin2Step m a q = m q := by simp [twin2Step, pmSet, hqa]
          simp [h1, hqa, h2]

theorem twin2_fold_colors :
    ∀ (l : List Coord) (m : PixelMap),
      (∀ p c, m p = some c → c ∈ [blue, cyan, light_blue]) →
      ∀ p c, (l.foldl twin2Step m) p = some c → c ∈ [blue, cyan, light_blue] := by
  intro l
  induction l with
  | nil => exact fun m h => h
  | cons a l ih =>
      intro m h
      rw [List.foldl_cons]
      refine ih (twin2Step m a) ?_
      intro p c hp
      rw [twin2Step_eval] at hp
      by_cases hpa : p = a
      · rw [if_pos hpa] at hp
        obtain rfl := Option.some.inj hp
        by_cases hc : (m a).isSome <;> simp [hc]
      · rw [if_neg hpa] at hp
        exact h p c hp

theorem twin2_fold_support :
    ∀ (l : List Coord) (m : PixelMap) (p : Coord) (c : Color),
      (l.foldl twin2Step m) p = some c → p ∈ l ∨ ∃ c2, m p = some c2 := by
  intro l
  induction l with
  | nil => exact fun m p c h => Or.inr ⟨c, h⟩
  | cons a l ih =>
      intro m p c h
      rw [List.foldl_cons] at h
      rcases ih (twin2Step m a) p c h with h1 | ⟨c2, h2⟩
      · exact Or.inl (List.mem_cons_of_mem _ h1)
      · rw [twin2Step_eval] at h2
        by_cases hpa : p = a
        · exact Or.inl (hpa ▸ List.mem_cons_self _ _)
        · rw [if_neg hpa] at h2
          exact Or.inr ⟨c2, h2⟩

theorem raceBase_eval (q : Coord) :
    pmOfTrace (raceTwin1Coords.map (fun r => (r, blue))) q
      = if q ∈ raceTwin1Coords then some blue else none :=
  pmOfTrace_constmap blue raceTwin1Coords q

theorem raceTwin2_nodup : raceTwin2Coords.Nodup := by decide

/-- C10: in the racecondition body fill, a coordinate covered by both twin
passes ends up cyan (the blend branch), a coordinate covered only by the
second (right) twin ends up light_blue, and a coordinate covered only by the
first (left) twin keeps its blue. -/
theorem c10_race_blend :
    ∀ p : Coord,
      (p ∈ raceTwin1Coords → p ∈ raceTwin2Coords → raceBodyMap p = some cyan)
      ∧ (p ∈ raceTwin2Coords → p ∉ raceTwin1Coords → raceBodyMap p = some light_blue)
      ∧ (p ∈ raceTwin1Coords → p ∉ raceTwin2Coords → raceBodyMap p = some blue) := by
  intro p
  refine ⟨?_, ?_, ?_⟩
  · intro h1 h2
    unfold raceBodyMap
    rw [twin2_fold_eval raceTwin2Coords raceTwin2_nodup _ p, raceBase_eval p]
    simp [h1, h2]
  · intro h2 h1
    unfold raceBodyMap
    rw [twin2_fold_eval raceTwin2Coords raceTwin2_nodup _ p, raceBase_eval p]
    simp [h1, h2]
  · intro h1 h2
    unfold raceBodyMap
    rw [twin2_fold_eval raceTwin2Coords raceTwin2_nodup _ p, raceBase_eval p]
    simp [h1, h2]

/-- Witness for C10: (15,10) is covered by both twins and is cyan, (20,10)
only by the right twin and is light_blue, (9,10) only by the left twin and
is blue. -/
theorem c10_race_blend_witness :
    raceBodyMap (15, 10) = some cyan
    ∧ raceBodyMap (20, 10) = some light_blue
    ∧ raceBodyMap (9, 10) = some blue :=
  ⟨(c10_race_blend (15, 10)).1 (by decide) (by decide),
   (c10_race_blend (20, 10)).2.1 (by decide) (by decide),
   (c10_race_blend (9, 10)).2.2 (by decide) (by decide)⟩

/-- A color is visible somewhere in a pixel map. -/
def appearsIn (m : PixelMap) (c : Color) : Prop := ∃ p, m p = some c

/-- Counterexample to C4 at the stackoverflow boss descriptor: its body fill
(the stacked frames together with their yellow and dark_brown frame borders)
uses only the four colors dark_red, red, yellow, dark_brown, so no five
pairwise-distinct colors can appear in it. -/
theorem c4_counterexample :
    ¬ ∃ cs : List Color, 5 ≤ cs.length ∧ cs.Nodup
        ∧ ∀ c ∈ cs, appearsIn (pmOfTrace stackoverflowFill) c := by
  rintro ⟨cs, hlen, hnd, hall⟩
  have hsub : cs ⊆ [dark_red, red, yellow, dark_brown] := by
    intro c hc
    obtain ⟨p, hp⟩ := hall c hc
    have hmem : (p, c) ∈ stackoverflowFill := pmOfTrace_mem hp
    have hcols : ∀ pc ∈ stackoverflowFill, pc.2 ∈ [dark_red, red, yellow, dark_brown] := by
      decide
    exact hcols (p, c) hmem
  have hle := (hnd.subperm hsub).length_le
  simp only [List.length_cons, List.length_nil] at hle
  omega

/-- C4 amended: the heisenbug boss fill uses exactly the five pairwise
distinct cyclic colors; the stackoverflow boss fill uses exactly the four
colors dark_red, red, yellow, dark_brown (not five); the regular fills use
exactly two colors for nullpointer, offbyone, memoryleak and deadlock, but
four colors for typemismatch and three for racecondition. -/
theorem c4_amended :
    ((∀ pc ∈ heisenbugFill, pc.2 ∈ heisenbugColors)
      ∧ (∀ c ∈ heisenbugColors, appearsIn (pmOfTrace heisenbugFill) c)
      ∧ heisenbugColors.Nodup ∧ heisenbugColors.length = 5)
    ∧ ((∀ pc ∈ stackoverflowFill, pc.2 ∈ [dark_red, red, yellow, dark_brown])
      ∧ (∀ c ∈ [dark_red, red, yellow, dark_brown],
          appearsIn (pmOfTrace stackoverflowFill) c))
    ∧ (∀ pc ∈ nullpointerFill, pc.2 ∈ [purple, dark_purple])
    ∧ (∀ pc ∈ offbyoneFill, pc.2 ∈ [green, dark_green])
    ∧ (∀ pc ∈ memoryleakFill, pc.2 ∈ [green, light_green])
    ∧ (∀ pc ∈ deadlockFill, pc.2 ∈ [gray, dark_gray])
    ∧ ((∀ pc ∈ typemismatchFill, pc.2 ∈ [red, dark_red, orange, yellow])
      ∧ (∀ c ∈ [red, dark_red, orange, yellow], appearsIn (pmOfTrace typemismatchFill) c))
    ∧ ((∀ p c, raceBodyMap p = some c → c ∈ [blue, cyan, light_blue])
      ∧ (∀ c ∈ [blue, cyan, light_blue], appearsIn raceBodyMap c)) := by
  refine ⟨⟨by decide, ?_, by decide, by decide⟩, ⟨by decide, ?_⟩,
    by decide, by decide, by decide, by decide, ⟨by decide, ?_⟩, ⟨?_, ?_⟩⟩
  · intro c hc
    fin_cases hc
    · exact ⟨(10, 10), by decide⟩
    · exact ⟨(7, 10), by decide⟩
    · exact ⟨(9, 10), by decide⟩
    · exact ⟨(11, 10), by decide⟩
    · exact ⟨(8, 10), by decide⟩
  · intro c hc
    fin_cases hc
    · exact ⟨(9, 11), by decide⟩
    · exact ⟨(9, 15), by decide⟩
    · exact ⟨(8, 10), by decide⟩
    · exact ⟨(9, 13), by decide⟩
  · intro c hc
    fin_cases hc
    · exact ⟨(10, 10), by decide⟩
    · exact ⟨(9, 11), by decide⟩
    · exact ⟨(16, 12), by decide⟩
    · exact ⟨(16, 11), by decide⟩
  · intro p c hp
    refine twin2_fold_colors raceTwin2Coords _ ?_ p c hp
    intro r c2 hr
    rw [raceBase_eval r] at hr
    by_cases hmem : r ∈ raceTwin1Coords
    · rw [if_pos hmem] at hr
      obtain rfl := Option.some.inj hr
      simp
    · rw [if_neg hmem] at hr
      exact absurd hr (by simp)
  · intro c hc
    fin_cases hc
    · exact ⟨(9, 10), by decide⟩
    · exact ⟨(15, 10), by decide⟩
    · exact ⟨(20, 10), by decide⟩

theorem trace_inBounds {t : List (Coord × Color)} (h : ∀ pc ∈ t, inBounds pc.1) :
    ∀ p c, pmOfTrace t p = some c → inBounds p :=
  fun p c hp => h (p, c) (pmOfTrace_mem hp)

/-- C5: for every one of the eight sprites, the body pixel map produced by
the shape fill and the recorded body set contain only coordinates within
canvas bounds, so no out-of-bounds coordinate is ever written or recorded. -/
theorem c5_fill_inBounds :
    ((∀ p c, pmOfTrace nullpointerFill p = some c → inBounds p)
      ∧ ∀ p ∈ nullpointerBodySet, inBounds p)
    ∧ ((∀ p c, pmOfTrace typemismatchFill p = some c → inBounds p)
      ∧ ∀ p ∈ typemismatchBodySet, inBounds p)
    ∧ ((∀ p c, pmOfTrace offbyoneFill p = some c → inBounds p)
      ∧ ∀ p ∈ offbyoneBodySet, inBounds p)
    ∧ ((∀ p c, pmOfTrace stackoverflowFill p = some c → inBounds p)
      ∧ ∀ p ∈ stackoverflowBodySet, inBounds p)
    ∧ ((∀ p c, raceBodyMap p = some c → inBounds p)
      ∧ ∀ p ∈ raceBodySet, inBounds p)
    ∧ ((∀ p c, pmOfTrace memoryleakFill p = some c → inBounds p)
      ∧ ∀ p ∈ memoryleakBodySet, inBounds p)
    ∧ ((∀ p c, pmOfTrace deadlockFill p = some c → inBounds p)
      ∧ ∀ p ∈ deadlockBodySet, inBounds p)
    ∧ ((∀ p c, pmOfTrace heisenbugFill p = some c → inBounds p)
      ∧ ∀ p ∈ heisenbugBodySet, inBounds p) := by
  refine ⟨⟨trace_inBounds (by decide), by decide⟩,
    ⟨trace_inBounds (by decide), by decide⟩,
    ⟨trace_inBounds (by decide), by decide⟩,
    ⟨trace_inBounds (by decide), by decide⟩,
    ⟨?_, by decide⟩,
    ⟨trace_inBounds (by decide), by decide⟩,
    ⟨trace_inBounds (by decide), by decide⟩,
    ⟨trace_inBounds (by decide), by decide⟩⟩
  intro p c hp
  rcases twin2_fold_support raceTwin2Coords _ p c hp with h1 | ⟨c2, h2⟩
  · exact (by decide : ∀ r ∈ raceTwin2Coords, inBounds r) p h1
  · rw [raceBase_eval p] at h2
    by_cases hmem : p ∈ raceTwin1Coords
    · exact (by decide : ∀ r ∈ raceTwin1Coords, inBounds r) p hmem
    · rw [if_neg hmem] at h2
      exact absurd h2 (by simp)

/-- Witness for C5: the fill pixel at (15, 8) of the nullpointer ghost is in
bounds, obtained through the first conjunct. -/
theorem c5_fill_inBounds_witness : inBounds ((15 : Int), (8 : Int)) :=
  c5_fill_inBounds.1.1 (15, 8) purple (by decide)

/-- C6: on a glitch row (y % 5 == 0) of the typemismatch fill, the write
emitted for a candidate pixel (x, y) of the row span lands at the shifted
coordinate (x+1, y) in the left half of the body and (x-1, y) in the right
half, never at the candidate's own unshifted coordinate (x, y), and the
shifted coordinate is the one recorded into the body set. -/
theorem c6_glitch_shift :
    ∀ y x : Int, 6 ≤ y → y < 28 → y % 5 = 0 →
      16 - Int.ediv (typemismatchW y) 2 ≤ x → x < 16 + Int.ediv (typemismatchW y) 2 →
      (typemismatchFillWrite y x).1 = ((x + (if x < 16 then 1 else -1), y) : Coord)
      ∧ (typemismatchFillWrite y x).1 ≠ (x, y)
      ∧ (typemismatchFillWrite y x).1 ∈ typemismatchBodySet := by
  intro y x h6 h28 h5 hxl hxr
  refine ⟨?_, ?_, ?_⟩
  · simp [typemismatchFillWrite, h5]
  · simp only [typemismatchFillWrite, h5, if_pos]
    by_cases hx : x < 16 <;> simp [hx, Prod.ext_iff]
  · have hmem : typemismatchFillWrite y x ∈ typemismatchFill := by
      unfold typemismatchFill
      refine List.mem_flatMap.mpr ⟨y, intRange_mem.mpr ⟨h6, h28⟩, ?_⟩
      exact List.mem_map.mpr ⟨x, intRange_mem.mpr ⟨hxl, hxr⟩, rfl⟩
    exact List.mem_map.mpr ⟨typemismatchFillWrite y x, hmem, rfl⟩

/-- Witness for C6: the candidate pixel (9, 10) of the glitch row y = 10 is
written at (10, 10), not at (9, 10), and (10, 10) is recorded. -/
theorem c6_glitch_shift_witness :
    (typemismatchFillWrite 10 9).1 = ((10 : Int), (10 : Int))
    ∧ (typemismatchFillWrite 10 9).1 ≠ ((9 : Int), (10 : Int))
    ∧ (typemismatchFillWrite 10 9).1 ∈ typemismatchBodySet := by
  obtain ⟨h1, h2, h3⟩ :=
    c6_glitch_shift 10 9 (by decide) (by decide) (by decide) (by decide) (by decide)
  refine ⟨?_, h2, h3⟩
  rw [h1]
  decide

/-- Counterexample to C3 at the heisenbug boss: the body set handed to
draw_outline is not the set of shape-fill coordinates — the overlay particle
(6, 8) is recorded in it although the fill never writes (6, 8) — and that
recorded overlay pixel makes the otherwise-empty coordinate (5, 8)
outline-eligible, so overlay pixels do influence the outline. -/
theorem c3_counterexample :
    ¬ (∀ p : Coord, p ∈ heisenbugBodySet ↔ p ∈ heisenbugFillCoords)
    ∧ draw_outline pmEmpty heisenbugBodySet black (5, 8) = some black
    ∧ draw_outline pmEmpty heisenbugFillCoords black (5, 8) = none := by
  refine ⟨?_, ?_, ?_⟩
  · intro h
    have h2 := (h (6, 8)).mp (by decide)
    exact absurd h2 (by decide)
  · rw [draw_outline_eval]
    decide
  · rw [draw_outline_eval]
    decide

/-- C3 amended: the body set consumed by draw_outline is the set of fill
coordinates together with the overlay coordinates the generators explicitly
record (boss crown and particle pixels, racecondition speed lines,
memoryleak drips and bubbles, deadlock chain links); the outline is computed
after these overlay writes, and a recorded overlay pixel does make its empty
neighbors outline-eligible, as at (5, 8) next to the heisenbug particle
(6, 8). -/
theorem c3_amended :
    (∀ p : Coord, p ∈ heisenbugBodySet
      ↔ (p ∈ heisenbugFillCoords ∨ p ∈ heisenbugCrownCoords ∨ p ∈ heisenbugParticles))
    ∧ (∀ p : Coord, p ∈ stackoverflowBodySet
      ↔ (p ∈ stackoverflowFillSet ∨ p ∈ stackoverflowCrownSet))
    ∧ (∀ p : Coord, p ∈ raceBodySet
      ↔ (p ∈ raceTwin1Coords ∨ p ∈ raceTwin2Coords ∨ p ∈ raceSpeedCoords))
    ∧ (∀ p : Coord, p ∈ memoryleakBodySet
      ↔ (p ∈ memoryleakFill.map Prod.fst ∨ p ∈ memoryleakDrips.map Prod.fst
          ∨ p ∈ memoryleakBubbles))
    ∧ (∀ p : Coord, p ∈ deadlockBodySet
      ↔ (p ∈ deadlockFill.map Prod.fst ∨ p ∈ deadlockChains))
    ∧ (∀ p : Coord, p ∈ nullpointerBodySet ↔ p ∈ nullpointerFill.map Prod.fst)
    ∧ (∀ p : Coord, p ∈ typemismatchBodySet ↔ p ∈ typemismatchFill.map Prod.fst)
    ∧ (∀ p : Coord, p ∈ offbyoneBodySet ↔ p ∈ offbyoneFill.map Prod.fst)
    ∧ draw_outline pmEmpty heisenbugBodySet black (5, 8) = some black := by
  refine ⟨?_, ?_, ?_, ?_, ?_, ?_, ?_, ?_, ?_⟩
  · intro p
    unfold heisenbugBodySet
    simp [List.mem_append, or_assoc]
  · intro p
    unfold stackoverflowBodySet
    simp [List.mem_append]
  · intro p
    unfold raceBodySet
    simp [List.mem_append, or_assoc]
  · intro p
    unfold memoryleakBodySet
    simp [List.mem_append, or_assoc]
  · intro p
    unfold deadlockBodySet
    simp [List.mem_append]
  · exact fun p => Iff.rfl
  · exact fun p => Iff.rfl
  · exact fun p => Iff.rfl
  · rw [draw_outline_eval]
    decide

/-- C8: for a fixed set of descriptors and a fixed palette, repeated
generation is deterministic: the pipeline consults no source of randomness,
so two runs with any two ambient seeds produce the identical list of
composited pixel maps. -/
theorem c8_deterministic : ∀ seed1 seed2 : Nat, generateAll seed1 = generateAll seed2 :=
  fun _ _ => rfl

/-- Witness for the amended C4: the fill write of blue at (7, 10) in the
heisenbug body is one of the five cyclic colors, and the final heisenbug
fill color at (7, 10) is indeed blue. -/
theorem c4_amended_witness :
    blue ∈ heisenbugColors ∧ appearsIn (pmOfTrace heisenbugFill) blue :=
  ⟨c4_amended.1.1 ((7, 10), blue) (by decide),
   c4_amended.1.2.1 blue (by decide)⟩
